import Mathlib

/-!
# react-native-fast-tflite: the TensorflowPlugin host object

A shallow embedding of `cpp/TensorflowPlugin.cpp`: the loader installed as
`__loadTensorflowModel`, the session object (`TensorflowPlugin`) with its
`run`, `runSync` and `delegate` properties, the name-keyed cache of output
typed arrays, and the destructor.

The TensorFlow Lite C API is an external collaborator and enters as the
parameter `TfLite`.  Every state-changing call into it, every `free`, every
callback handed to the call-invoker and every promise settlement made on the
background task is recorded in a trace, in program order.
-/

namespace FastTflite

/-! ## Data model -/

/-- The `Delegate` enumeration named by the plugin (`Delegate::Default`,
`Delegate::CoreML`, `Delegate::Metal`). -/
inductive Delegate
  | Default
  | CoreML
  | Metal
deriving DecidableEq, Repr

/-- A JavaScript value handed to a host function.  The loader only asks whether
a value is a string and, if so, reads its text. -/
inductive JsValue
  | undefined
  | null
  | boolean (b : Bool)
  | number (n : Int)
  | string (s : String)
  | object
deriving DecidableEq, Repr

/-- The `Buffer` holding fetched model bytes: `data` is the pointer returned by
`malloc` (`none` is `nullptr`), `size` the byte count. -/
structure Buffer where
  data : Option Nat
  size : Nat
deriving DecidableEq, Repr

/-- `TfLiteStatus`, as a number. -/
abbrev TfLiteStatus := Nat

/-- The status `kTfLiteOk`. -/
def kTfLiteOk : TfLiteStatus := 0

/-- A tensor of the engine: its name and its raw bytes. -/
structure TfLiteTensor where
  name : String
  bytes : List Nat
deriving DecidableEq, Repr

/-- The state behind a `TfLiteInterpreter*`: the input and the output tensors. -/
structure TfLiteInterpreter where
  inputs : List TfLiteTensor
  outputs : List TfLiteTensor
deriving DecidableEq, Repr

/-- A `TfLiteModel*` handle. -/
abbrev TfLiteModel := Nat

/-- The interpreter options: the delegates added so far. -/
structure TfLiteInterpreterOptions where
  delegates : List Delegate
deriving DecidableEq, Repr

/-- The part of the TensorFlow Lite C API that the plugin consumes and that
computes something: each entry is a function of its arguments. -/
structure TfLite where
  ModelCreate : Buffer → Option TfLiteModel
  InterpreterCreate : TfLiteModel → TfLiteInterpreterOptions → Option TfLiteInterpreter
  InterpreterAllocateTensors : TfLiteInterpreter → TfLiteStatus × TfLiteInterpreter
  InterpreterInvoke : TfLiteInterpreter → TfLiteStatus × TfLiteInterpreter

/-- What can be raised.  `runtime_error` is the `std::runtime_error` the sources
throw; `jsi` stands for an error raised inside the JSI library (`asString` on a
value that is no string); `tensorCopy` is the size check of the tensor helpers;
`nullInterpreter` marks a call on a session whose interpreter pointer is null,
which no constructed session reaches before its destructor has run. -/
inductive Error
  | runtime_error (what : String)
  | jsi
  | tensorCopy
  | nullInterpreter
deriving DecidableEq, Repr

/-- The fields of the `TensorflowPlugin` object (the shared call-invoker apart).
`_outputBuffers` maps a tensor name to the reference of its typed array. -/
structure TensorflowPlugin where
  _interpreter : Option TfLiteInterpreter
  _delegate : Delegate
  _model : Buffer
  _outputBuffers : List (String × Nat)
deriving DecidableEq, Repr

/-- The typed arrays living in the JavaScript runtime: a reference is an index
into this store, the entry is the array content. -/
structure Runtime where
  typedArrays : List (List Nat)
deriving DecidableEq, Repr

/-- A session together with the runtime it lives in. -/
structure State where
  plugin : TensorflowPlugin
  runtime : Runtime
deriving DecidableEq, Repr

/-- State-changing calls into the engine and into the allocator. -/
inductive Call
  | TfLiteModelCreate
  | TfLiteInterpreterOptionsCreate
  | TfLiteCoreMlDelegateCreate
  | TfLiteInterpreterOptionsAddDelegate
  | TfLiteInterpreterCreate
  | TfLiteInterpreterAllocateTensors
  | TfLiteInterpreterInvoke
  | TfLiteInterpreterDelete
  | free (ptr : Nat)
deriving DecidableEq, Repr

/-- One entry of a trace.  `invokeAsync cb` is `callInvoker->invokeAsync(cb)`;
`reject message` is `promise->reject(message)` executed by the running task
itself, outside any call-invoker callback. -/
inductive Event (κ : Type)
  | call (c : Call)
  | invokeAsync (callback : κ)
  | reject (message : String)
deriving DecidableEq, Repr

/-- How a promise is settled. -/
inductive Settlement (α : Type)
  | resolve (value : α)
  | reject (message : String)
deriving DecidableEq, Repr

/-- The bodies of the callbacks the loader hands to the call-invoker. -/
inductive LoadCallback
  | reject (message : String)
  | resolve (plugin : TensorflowPlugin)
deriving DecidableEq, Repr

/-- The body of the callback `run` hands to the call-invoker:
`copyOutputBuffers` followed by `promise->resolve`. -/
inductive RunCallback
  | copyOutputAndResolve
deriving DecidableEq, Repr

/-! ## The loader -/

/-- The delegate parsing of `__loadTensorflowModel`: `Default` unless a second
argument is present and is a string, in which case its text decides. -/
def delegateType (arguments : List JsValue) : Delegate :=
  if arguments.length > 1 then
    match arguments[1]? with
    | some (JsValue.string delegate) =>
      if delegate = "core-ml" then Delegate.CoreML
      else if delegate = "metal" then Delegate.Metal
      else Delegate.Default
    | _ => Delegate.Default
  else Delegate.Default

/-- The `switch (delegateType)` of the loader.  `coreMLEnabled` is the build
flag `FAST_TFLITE_ENABLE_CORE_ML`.  An error result is the message of the
rejection after which the task returns. -/
def delegateSwitch (coreMLEnabled : Bool) (delegateType : Delegate)
    (options : TfLiteInterpreterOptions) : List Call × Except String TfLiteInterpreterOptions :=
  match delegateType with
  | Delegate.CoreML =>
    if coreMLEnabled then
      ([Call.TfLiteCoreMlDelegateCreate, Call.TfLiteInterpreterOptionsAddDelegate],
        Except.ok { delegates := options.delegates ++ [Delegate.CoreML] })
    else
      ([], Except.error
        "CoreML Delegate is not enabled! Set $EnableCoreMLDelegate to true in Podfile and rebuild.")
  | Delegate.Metal => ([], Except.error "Metal Delegate is not supported!")
  | Delegate.Default => ([], Except.ok options)

/-- The constructor `TensorflowPlugin::TensorflowPlugin`: stores the fields,
allocates the tensors and throws when the status is not `kTfLiteOk`. -/
def TensorflowPlugin.construct (tf : TfLite) (interpreter : TfLiteInterpreter) (model : Buffer)
    (delegate : Delegate) : List Call × Except Error TensorflowPlugin :=
  let allocated := tf.InterpreterAllocateTensors interpreter
  if allocated.1 ≠ kTfLiteOk then
    ([Call.TfLiteInterpreterAllocateTensors],
      Except.error (Error.runtime_error
        ("Failed to allocate memory for input/output tensors! Status: " ++ toString allocated.1)))
  else
    ([Call.TfLiteInterpreterAllocateTensors],
      Except.ok { _interpreter := some allocated.2, _delegate := delegate, _model := model,
                  _outputBuffers := [] })

/-- The task the loader starts with `std::async`: its trace, and the exception
that left the task uncaught, if any. -/
def loadTask (tf : TfLite) (coreMLEnabled : Bool) (modelPath : String) (buffer : Buffer)
    (model : Option TfLiteModel) (delegateType : Delegate) :
    List (Event LoadCallback) × Option Error :=
  match model with
  | none =>
    ([Event.invokeAsync (LoadCallback.reject ("Failed to load model from \"" ++ modelPath ++ "\"!"))],
      none)
  | some model =>
    match delegateSwitch coreMLEnabled delegateType { delegates := [] } with
    | (calls, Except.error message) =>
      (Event.call Call.TfLiteInterpreterOptionsCreate :: calls.map Event.call
        ++ [Event.invokeAsync (LoadCallback.reject message)], none)
    | (calls, Except.ok options) =>
      match tf.InterpreterCreate model options with
      | none =>
        (Event.call Call.TfLiteInterpreterOptionsCreate :: calls.map Event.call
          ++ [Event.call Call.TfLiteInterpreterCreate,
              Event.invokeAsync (LoadCallback.reject
                ("Failed to create TFLite interpreter from model \"" ++ modelPath ++ "\"!"))], none)
      | some interpreter =>
        match TensorflowPlugin.construct tf interpreter buffer delegateType with
        | (made, Except.error e) =>
          (Event.call Call.TfLiteInterpreterOptionsCreate :: calls.map Event.call
            ++ [Event.call Call.TfLiteInterpreterCreate] ++ made.map Event.call, some e)
        | (made, Except.ok plugin) =>
          (Event.call Call.TfLiteInterpreterOptionsCreate :: calls.map Event.call
            ++ [Event.call Call.TfLiteInterpreterCreate] ++ made.map Event.call
            ++ [Event.invokeAsync (LoadCallback.resolve plugin)], none)

/-- The executor of the load promise: fetch the bytes, create the model, run
the task.  The future returned by `std::async` is dropped on the spot, so an
exception that leaves the task is dropped with it and only the trace remains.
An exception of `fetchURL` leaves the executor. -/
def loadExecutor (tf : TfLite) (coreMLEnabled : Bool) (fetchURL : String → Except Error Buffer)
    (modelPath : String) (delegateType : Delegate) : Except Error (List (Event LoadCallback)) :=
  match fetchURL modelPath with
  | Except.error e => Except.error e
  | Except.ok buffer =>
    Except.ok (Event.call Call.TfLiteModelCreate ::
      (loadTask tf coreMLEnabled modelPath buffer (tf.ModelCreate buffer) delegateType).1)

/-- The host function `__loadTensorflowModel`: the first argument is read as a
string (the JSI library raises otherwise), the delegate is parsed, the promise
executor runs. -/
def loadTensorflowModel (tf : TfLite) (coreMLEnabled : Bool)
    (fetchURL : String → Except Error Buffer) (arguments : List JsValue) :
    Except Error (List (Event LoadCallback)) :=
  match arguments.head? with
  | some (JsValue.string modelPath) =>
    loadExecutor tf coreMLEnabled fetchURL modelPath (delegateType arguments)
  | _ => Except.error Error.jsi

/-- The call-invoker runs a callback of the loader on the runtime thread. -/
def LoadCallback.invoke : LoadCallback → Settlement TensorflowPlugin
  | LoadCallback.reject message => Settlement.reject message
  | LoadCallback.resolve plugin => Settlement.resolve plugin

/-- The settlements the load promise receives from a trace: those the task made
itself and those made by the callbacks it queued. -/
def loadSettlements : List (Event LoadCallback) → List (Settlement TensorflowPlugin)
  | [] => []
  | Event.call _ :: es => loadSettlements es
  | Event.invokeAsync cb :: es => cb.invoke :: loadSettlements es
  | Event.reject message :: es => Settlement.reject message :: loadSettlements es

/-- The settlements a task performed itself, outside the call-invoker. -/
def directSettlements {κ : Type} : List (Event κ) → List String
  | [] => []
  | Event.reject message :: es => message :: directSettlements es
  | _ :: es => directSettlements es

/-- The number of times `free` is called on `ptr` in a trace. -/
def freeCount {κ : Type} (ptr : Nat) : List (Event κ) → Nat
  | [] => 0
  | Event.call (Call.free p) :: es => (if p = ptr then 1 else 0) + freeCount ptr es
  | _ :: es => freeCount ptr es

/-- The engine calls of a trace, in order. -/
def engineCalls {κ : Type} : List (Event κ) → List Call
  | [] => []
  | Event.call c :: es => c :: engineCalls es
  | _ :: es => engineCalls es

/-- Whether the text `sub` occurs at the head of `msg`. -/
def startsWithChars : List Char → List Char → Bool
  | _, [] => true
  | [], _ :: _ => false
  | c :: cs, d :: ds => c == d && startsWithChars cs ds

/-- Whether `sub` occurs somewhere in `msg`. -/
def containsChars : List Char → List Char → Bool
  | [], sub => startsWithChars [] sub
  | c :: cs, sub => startsWithChars (c :: cs) sub || containsChars cs sub

/-- Whether the message contains the text `sub`. -/
def messageContains (msg sub : String) : Bool :=
  containsChars msg.toList sub.toList

/-! ## The destructor -/

/-- The destructor `~TensorflowPlugin`: first the model bytes, then the
interpreter, each behind its null check. -/
def TensorflowPlugin.destructor (self : TensorflowPlugin) : TensorflowPlugin × List Call :=
  let freed : TensorflowPlugin × List Call :=
    match self._model.data with
    | some ptr => ({ self with _model := { data := none, size := 0 } }, [Call.free ptr])
    | none => (self, [])
  match freed.1._interpreter with
  | some _ => ({ freed.1 with _interpreter := none }, freed.2 ++ [Call.TfLiteInterpreterDelete])
  | none => (freed.1, freed.2)

/-! ## Tensor helpers -/

/-- Modelled from the spec: `TensorHelpers::createJSBufferForTensor` is not among
the sources at hand.  It creates a typed buffer whose element count matches the
tensor: here a zero-filled array of the tensor's byte length. -/
def createJSBufferForTensor (tensor : TfLiteTensor) : List Nat :=
  List.replicate tensor.bytes.length 0

/-- Modelled from the spec: `TensorHelpers::updateTensorFromJSBuffer` is not
among the sources at hand.  It checks that the byte sizes agree and copies the
raw bytes of the typed array into the tensor. -/
def updateTensorFromJSBuffer (tensor : TfLiteTensor) (jsBuffer : List Nat) :
    Except Error TfLiteTensor :=
  if jsBuffer.length ≠ tensor.bytes.length then Except.error Error.tensorCopy
  else Except.ok { tensor with bytes := jsBuffer }

/-- Modelled from the spec: `TensorHelpers::updateJSBufferFromTensor` is not
among the sources at hand.  It copies the tensor byte for byte into the typed
array behind the reference `jsBuffer`. -/
def updateJSBufferFromTensor (runtime : Runtime) (jsBuffer : Nat) (tensor : TfLiteTensor) :
    Runtime :=
  { typedArrays := runtime.typedArrays.set jsBuffer tensor.bytes }

/-! ## The session -/

/-- The method `getOutputArrayForTensor`: look the tensor name up in
`_outputBuffers`; when absent, create a typed array and store its reference
under the name; return the reference stored under the name. -/
def getOutputArrayForTensor (s : State) (tensor : TfLiteTensor) : Nat × State :=
  let name := tensor.name
  match s.plugin._outputBuffers.lookup name with
  | some array => (array, s)
  | none =>
    let array := s.runtime.typedArrays.length
    (array,
      { plugin := { s.plugin with _outputBuffers := (name, array) :: s.plugin._outputBuffers },
        runtime := { typedArrays := s.runtime.typedArrays ++ [createJSBufferForTensor tensor] } })

/-- The loop of `copyInputBuffers`: tensor `i` receives input `i`; the first
failing copy stops the loop and the tensors written before it stay written. -/
def copyInputLoop : List TfLiteTensor → List (List Nat) → List TfLiteTensor × Option Error
  | tensor :: tensors, value :: values =>
    match updateTensorFromJSBuffer tensor value with
    | Except.error e => (tensor :: tensors, some e)
    | Except.ok updated =>
      let rest := copyInputLoop tensors values
      (updated :: rest.1, rest.2)
  | tensors, _ => (tensors, none)

/-- The method `copyInputBuffers`.  The input values are the contents of the
typed arrays of the JavaScript array, in order. -/
def copyInputBuffers (s : State) (inputValues : List (List Nat)) : Except Error Unit × State :=
  match s.plugin._interpreter with
  | none => (Except.error Error.nullInterpreter, s)
  | some interpreter =>
    let count := inputValues.length
    if count ≠ interpreter.inputs.length then
      (Except.error (Error.runtime_error
        "TFLite: Input Values have different size than there are input tensors!"), s)
    else
      let copied := copyInputLoop interpreter.inputs inputValues
      let s1 : State :=
        { s with plugin :=
            { s.plugin with _interpreter := some { interpreter with inputs := copied.1 } } }
      match copied.2 with
      | some e => (Except.error e, s1)
      | none => (Except.ok (), s1)

/-- The loop of `copyOutputBuffers`: for each output tensor, fetch its typed
array, copy the tensor into it and put the array into the result. -/
def copyOutputLoop (s : State) : List TfLiteTensor → List Nat × State
  | [] => ([], s)
  | outputTensor :: rest =>
    let got := getOutputArrayForTensor s outputTensor
    let s1 : State :=
      { got.2 with runtime := updateJSBufferFromTensor got.2.runtime got.1 outputTensor }
    let more := copyOutputLoop s1 rest
    (got.1 :: more.1, more.2)

/-- The method `copyOutputBuffers`: the result array holds the references of
the typed arrays, one per output tensor. -/
def copyOutputBuffers (s : State) : Except Error (List Nat) × State :=
  match s.plugin._interpreter with
  | none => (Except.error Error.nullInterpreter, s)
  | some interpreter =>
    let copied := copyOutputLoop s interpreter.outputs
    (Except.ok copied.1, copied.2)

/-- The method `TensorflowPlugin::run`: invoke the interpreter, throw when the
status is not `kTfLiteOk`. -/
def run (tf : TfLite) (s : State) : Except Error Unit × State × List Call :=
  match s.plugin._interpreter with
  | none => (Except.error Error.nullInterpreter, s, [])
  | some interpreter =>
    let invoked := tf.InterpreterInvoke interpreter
    let s1 : State := { s with plugin := { s.plugin with _interpreter := some invoked.2 } }
    if invoked.1 ≠ kTfLiteOk then
      (Except.error (Error.runtime_error
        ("Failed to run TFLite Model! Status: " ++ toString invoked.1)), s1,
        [Call.TfLiteInterpreterInvoke])
    else
      (Except.ok (), s1, [Call.TfLiteInterpreterInvoke])

/-- The host function behind the property `runSync`: copy in, run, copy out,
all on the calling thread. -/
def get_runSync (tf : TfLite) (s : State) (inputValues : List (List Nat)) :
    Except Error (List Nat) × State × List (Event RunCallback) :=
  match copyInputBuffers s inputValues with
  | (Except.error e, s1) => (Except.error e, s1, [])
  | (Except.ok (), s1) =>
    match run tf s1 with
    | (Except.error e, s2, calls) => (Except.error e, s2, calls.map Event.call)
    | (Except.ok (), s2, calls) =>
      let out := copyOutputBuffers s2
      (out.1, out.2, calls.map Event.call)

/-- The host function behind the property `run`: copy in on the calling
thread (an exception there leaves the host function and no promise is made);
then the task: run, and on success hand the copy-out callback to the
call-invoker, on a caught `std::runtime_error` reject on the spot.  The result
`ok` stands for the promise handed back. -/
def get_run (tf : TfLite) (s : State) (inputValues : List (List Nat)) :
    Except Error Unit × State × List (Event RunCallback) :=
  match copyInputBuffers s inputValues with
  | (Except.error e, s1) => (Except.error e, s1, [])
  | (Except.ok (), s1) =>
    match run tf s1 with
    | (Except.ok (), s2, calls) =>
      (Except.ok (), s2,
        calls.map Event.call ++ [Event.invokeAsync RunCallback.copyOutputAndResolve])
    | (Except.error (Error.runtime_error what), s2, calls) =>
      (Except.ok (), s2, calls.map Event.call ++ [Event.reject what])
    | (Except.error _, s2, calls) => (Except.ok (), s2, calls.map Event.call)

/-- The call-invoker runs the callback of `run` on the runtime thread. -/
def RunCallback.invoke (s : State) : RunCallback → Option (Settlement (List Nat)) × State
  | RunCallback.copyOutputAndResolve =>
    match copyOutputBuffers s with
    | (Except.ok result, s1) => (some (Settlement.resolve result), s1)
    | (Except.error _, s1) => (none, s1)

/-- The settlements the promise of `run` receives from a trace, and the state
after the queued callbacks have run. -/
def runSettlements (s : State) : List (Event RunCallback) → List (Settlement (List Nat)) × State
  | [] => ([], s)
  | Event.call _ :: es => runSettlements s es
  | Event.reject message :: es =>
    let later := runSettlements s es
    (Settlement.reject message :: later.1, later.2)
  | Event.invokeAsync cb :: es =>
    let first := cb.invoke s
    let later := runSettlements first.2 es
    (first.1.toList ++ later.1, later.2)

/-- The property `delegate` of `TensorflowPlugin::get`. -/
def get_delegate (self : TensorflowPlugin) : String :=
  match self._delegate with
  | Delegate.Default => "default"
  | Delegate.CoreML => "core-ml"
  | Delegate.Metal => "metal"

/-! ## Reading the cache -/

/-- The content of the typed array cached under a tensor name, if any. -/
def cachedContents (s : State) (name : String) : Option (List Nat) :=
  match s.plugin._outputBuffers.lookup name with
  | some array => s.runtime.typedArrays[array]?
  | none => none

/-- The last tensor of a list that carries the given name. -/
def lastNamed (tensors : List TfLiteTensor) (name : String) : Option TfLiteTensor :=
  tensors.reverse.find? (fun tensor => tensor.name == name)

/-- A cache is well formed when every cached reference designates a typed array
of the runtime and no two names share a reference.  The empty cache is, and
`getOutputArrayForTensor` keeps it so, since a created array is a fresh one. -/
def State.WellFormed (s : State) : Prop :=
  (∀ entry ∈ s.plugin._outputBuffers, entry.2 < s.runtime.typedArrays.length) ∧
    (s.plugin._outputBuffers.map Prod.snd).Nodup

instance (s : State) : Decidable s.WellFormed := by
  unfold State.WellFormed
  infer_instance

/-! ## Sample engines and sessions -/

/-- A sample interpreter: one input tensor of four bytes, one output tensor of
two bytes. -/
def sampleInterpreter : TfLiteInterpreter :=
  { inputs := [{ name := "in", bytes := [0, 0, 0, 0] }],
    outputs := [{ name := "out", bytes := [0, 0] }] }

/-- A sample invocation: every output byte becomes the sum of all input bytes. -/
def sampleInvoke (interpreter : TfLiteInterpreter) : TfLiteInterpreter :=
  { interpreter with
    outputs := interpreter.outputs.map (fun tensor =>
      { tensor with
        bytes := tensor.bytes.map (fun _ =>
          (interpreter.inputs.map (fun input => input.bytes.sum)).sum) }) }

/-- A sample engine: parsing and interpreter creation succeed or not as told,
allocation and invocation report the given statuses. -/
def sampleEngine (parses creates : Bool) (allocateStatus invokeStatus : TfLiteStatus) : TfLite :=
  { ModelCreate := fun _ => if parses then some 1 else none
    InterpreterCreate := fun _ _ => if creates then some sampleInterpreter else none
    InterpreterAllocateTensors := fun interpreter => (allocateStatus, interpreter)
    InterpreterInvoke := fun interpreter => (invokeStatus, sampleInvoke interpreter) }

/-- Sample model bytes at address 7. -/
def sampleBuffer : Buffer := { data := some 7, size := 16 }

/-- A sample fetch function that always delivers `sampleBuffer`. -/
def sampleFetch : String → Except Error Buffer := fun _ => Except.ok sampleBuffer

/-- A freshly constructed sample session in an empty runtime. -/
def sampleState : State :=
  { plugin := { _interpreter := some sampleInterpreter, _delegate := Delegate.Default,
                _model := sampleBuffer, _outputBuffers := [] },
    runtime := { typedArrays := [] } }

/-- A session whose two output tensors carry the same name. -/
def twinState : State :=
  { plugin :=
      { _interpreter := some
          { inputs := [],
            outputs := [{ name := "out", bytes := [1] }, { name := "out", bytes := [2] }] },
        _delegate := Delegate.Default, _model := sampleBuffer, _outputBuffers := [] },
    runtime := { typedArrays := [] } }

/-! ## The loader: delegate hints -/

/-- C4: the delegate-hint mapping of the loader is total and never fails.  The
hint "core-ml" selects CoreML, "metal" selects Metal; any other string, a second
argument that is no string, and an absent second argument select Default.  And
the hint never makes the loader raise: once the first argument is a string and
the fetch delivers, the loader returns its promise whatever the other
arguments are. -/
theorem delegateType_total (tf : TfLite) (coreMLEnabled : Bool)
    (fetchURL : String → Except Error Buffer) (arguments : List JsValue) :
    (arguments[1]? = some (JsValue.string "core-ml") → delegateType arguments = Delegate.CoreML) ∧
    (arguments[1]? = some (JsValue.string "metal") → delegateType arguments = Delegate.Metal) ∧
    (∀ hint : String, arguments[1]? = some (JsValue.string hint) → hint ≠ "core-ml" →
      hint ≠ "metal" → delegateType arguments = Delegate.Default) ∧
    (∀ value : JsValue, arguments[1]? = some value → (∀ hint, value ≠ JsValue.string hint) →
      delegateType arguments = Delegate.Default) ∧
    (arguments[1]? = none → delegateType arguments = Delegate.Default) ∧
    (∀ (modelPath : String) (buffer : Buffer),
      arguments.head? = some (JsValue.string modelPath) → fetchURL modelPath = Except.ok buffer →
      ∃ events, loadTensorflowModel tf coreMLEnabled fetchURL arguments = Except.ok events) := by
  refine ⟨?_, ?_, ?_, ?_, ?_, ?_⟩
  · intro h
    have hlen : arguments.length > 1 := by
      rcases List.getElem?_eq_some_iff.mp h with ⟨hl, _⟩
      exact hl
    simp [delegateType, hlen, h]
  · intro h
    have hlen : arguments.length > 1 := by
      rcases List.getElem?_eq_some_iff.mp h with ⟨hl, _⟩
      exact hl
    simp [delegateType, hlen, h]
  · intro hint h h1 h2
    have hlen : arguments.length > 1 := by
      rcases List.getElem?_eq_some_iff.mp h with ⟨hl, _⟩
      exact hl
    simp [delegateType, hlen, h, h1, h2]
  · intro value h hv
    have hlen : arguments.length > 1 := by
      rcases List.getElem?_eq_some_iff.mp h with ⟨hl, _⟩
      exact hl
    cases value with
    | string t => exact absurd rfl (hv t)
    | undefined => simp [delegateType, hlen, h]
    | null => simp [delegateType, hlen, h]
    | boolean b => simp [delegateType, hlen, h]
    | number n => simp [delegateType, hlen, h]
    | object => simp [delegateType, hlen, h]
  · intro h
    have hlen : ¬ arguments.length > 1 := by
      have := List.getElem?_eq_none_iff.mp h
      omega
    simp [delegateType, hlen]
  · intro modelPath buffer h hf
    simp [loadTensorflowModel, loadExecutor, h, hf]

/-- C4, at concrete argument lists: the three kinds of hint, a number as second
argument, no second argument, and a loader call with an unknown hint that
returns its promise. -/
theorem delegateType_total_witness :
    delegateType [JsValue.string "m.tflite", JsValue.string "core-ml"] = Delegate.CoreML ∧
    delegateType [JsValue.string "m.tflite", JsValue.string "metal"] = Delegate.Metal ∧
    delegateType [JsValue.string "m.tflite", JsValue.string "gpu"] = Delegate.Default ∧
    delegateType [JsValue.string "m.tflite", JsValue.number 3] = Delegate.Default ∧
    delegateType [JsValue.string "m.tflite"] = Delegate.Default ∧
    (∃ events, loadTensorflowModel (sampleEngine true true 0 0) false sampleFetch
      [JsValue.string "m.tflite", JsValue.string "gpu"] = Except.ok events) :=
  ⟨(delegateType_total (sampleEngine true true 0 0) false sampleFetch
      [JsValue.string "m.tflite", JsValue.string "core-ml"]).1 rfl,
   (delegateType_total (sampleEngine true true 0 0) false sampleFetch
      [JsValue.string "m.tflite", JsValue.string "metal"]).2.1 rfl,
   (delegateType_total (sampleEngine true true 0 0) false sampleFetch
      [JsValue.string "m.tflite", JsValue.string "gpu"]).2.2.1 "gpu" rfl (by decide) (by decide),
   (delegateType_total (sampleEngine true true 0 0) false sampleFetch
      [JsValue.string "m.tflite", JsValue.number 3]).2.2.2.1 (JsValue.number 3) rfl
      (by intro hint h; cases h),
   (delegateType_total (sampleEngine true true 0 0) false sampleFetch
      [JsValue.string "m.tflite"]).2.2.2.2.1 rfl,
   (delegateType_total (sampleEngine true true 0 0) false sampleFetch
      [JsValue.string "m.tflite", JsValue.string "gpu"]).2.2.2.2.2 "m.tflite" sampleBuffer rfl rfl⟩

/-- The constructor keeps the delegate and the model bytes it was given. -/
theorem construct_ok_fields (tf : TfLite) (interpreter : TfLiteInterpreter) (model : Buffer)
    (delegate : Delegate) (calls : List Call) (plugin : TensorflowPlugin)
    (h : TensorflowPlugin.construct tf interpreter model delegate = (calls, Except.ok plugin)) :
    plugin._delegate = delegate ∧ plugin._model = model ∧
      (tf.InterpreterAllocateTensors interpreter).1 = kTfLiteOk := by
  unfold TensorflowPlugin.construct at h
  by_cases hs : (tf.InterpreterAllocateTensors interpreter).1 = kTfLiteOk
  · simp [hs] at h
    rcases h with ⟨_, rfl⟩
    exact ⟨rfl, rfl, hs⟩
  · simp [hs] at h

/-- Engine calls settle nothing. -/
theorem loadSettlements_calls (calls : List Call) (es : List (Event LoadCallback)) :
    loadSettlements (calls.map Event.call ++ es) = loadSettlements es := by
  induction calls with
  | nil => rfl
  | cons c cs ih => simpa [loadSettlements] using ih

/-- A session the load task resolves its promise with carries the delegate the
task was started with, and the fetched bytes. -/
theorem loadTask_resolved_fields (tf : TfLite) (coreMLEnabled : Bool) (modelPath : String)
    (buffer : Buffer) (model : Option TfLiteModel) (delegate : Delegate)
    (plugin : TensorflowPlugin)
    (h : Settlement.resolve plugin ∈
      loadSettlements (loadTask tf coreMLEnabled modelPath buffer model delegate).1) :
    plugin._delegate = delegate ∧ plugin._model = buffer := by
  unfold loadTask at h
  cases model with
  | none => simp [loadSettlements, LoadCallback.invoke] at h
  | some m =>
    simp only at h
    rcases hsw : delegateSwitch coreMLEnabled delegate { delegates := [] }
      with ⟨calls, message | options⟩
    · simp [hsw, loadSettlements, loadSettlements_calls, LoadCallback.invoke] at h
    · simp only [hsw] at h
      cases hcreate : tf.InterpreterCreate m options with
      | none => simp [hcreate, loadSettlements, loadSettlements_calls, LoadCallback.invoke] at h
      | some interpreter =>
        simp only [hcreate] at h
        rcases hcon : TensorflowPlugin.construct tf interpreter buffer delegate
          with ⟨made, e | plugin0⟩
        · have hmade := loadSettlements_calls made []
          simp only [List.append_nil] at hmade
          simp [hcon, loadSettlements, loadSettlements_calls, hmade] at h
        · have hf := construct_ok_fields _ _ _ _ _ _ hcon
          simp [hcon, loadSettlements, loadSettlements_calls, LoadCallback.invoke] at h
          subst h
          exact ⟨hf.1, hf.2.1⟩

/-- C10: the `delegate` property returns the name of the session's backend and
inverts the hint mapping of the loader on the recognised names.  A session
constructed with the delegate the loader derives from the hint "default",
"core-ml" or "metal" reads back that very string; a session constructed from a
call without hint reads "default"; and whatever session the loader resolves
its promise with after a call without hint reads "default". -/
theorem get_delegate_inverts_hint (tf : TfLite) (coreMLEnabled : Bool)
    (fetchURL : String → Except Error Buffer) (interpreter : TfLiteInterpreter) (model : Buffer)
    (path : JsValue) (rest : List JsValue) (modelPath : String) :
    (∀ (hint : String) (calls : List Call) (plugin : TensorflowPlugin),
      hint = "default" ∨ hint = "core-ml" ∨ hint = "metal" →
      TensorflowPlugin.construct tf interpreter model
        (delegateType (path :: JsValue.string hint :: rest)) = (calls, Except.ok plugin) →
      get_delegate plugin = hint) ∧
    (∀ (calls : List Call) (plugin : TensorflowPlugin),
      TensorflowPlugin.construct tf interpreter model (delegateType [path])
        = (calls, Except.ok plugin) →
      get_delegate plugin = "default") ∧
    (∀ (events : List (Event LoadCallback)) (plugin : TensorflowPlugin),
      loadTensorflowModel tf coreMLEnabled fetchURL [JsValue.string modelPath] = Except.ok events →
      Settlement.resolve plugin ∈ loadSettlements events →
      get_delegate plugin = "default") := by
  refine ⟨?_, ?_, ?_⟩
  · intro hint calls plugin hh hc
    have hf := (construct_ok_fields _ _ _ _ _ _ hc).1
    rcases hh with rfl | rfl | rfl <;>
      simp [get_delegate, hf, delegateType]
  · intro calls plugin hc
    have hf := (construct_ok_fields _ _ _ _ _ _ hc).1
    simp [get_delegate, hf, delegateType]
  · intro events plugin hl hs
    simp only [loadTensorflowModel, List.head?, loadExecutor] at hl
    cases hfetch : fetchURL modelPath with
    | error e => simp [hfetch] at hl
    | ok buffer =>
      simp only [hfetch] at hl
      injection hl with hl
      subst hl
      simp only [loadSettlements] at hs
      have hf := (loadTask_resolved_fields _ _ _ _ _ _ _ hs).1
      simp [get_delegate, hf, delegateType]

/-- C10, at a concrete engine: the three recognised hints read back, and the
session the sample loader resolves with after a call without hint reads
"default". -/
theorem get_delegate_inverts_hint_witness :
    get_delegate
        { _interpreter := some sampleInterpreter,
          _delegate := delegateType [JsValue.string "m.tflite", JsValue.string "metal"],
          _model := sampleBuffer, _outputBuffers := [] } = "metal" ∧
    get_delegate
        { _interpreter := some sampleInterpreter,
          _delegate := delegateType [JsValue.string "m.tflite", JsValue.string "core-ml"],
          _model := sampleBuffer, _outputBuffers := [] } = "core-ml" ∧
    get_delegate
        { _interpreter := some sampleInterpreter,
          _delegate := delegateType [JsValue.string "m.tflite", JsValue.string "default"],
          _model := sampleBuffer, _outputBuffers := [] } = "default" ∧
    get_delegate sampleState.plugin = "default" :=
  ⟨(get_delegate_inverts_hint (sampleEngine true true 0 0) false sampleFetch sampleInterpreter
      sampleBuffer (JsValue.string "m.tflite") [] "m.tflite").1 "metal" _ _
      (Or.inr (Or.inr rfl)) rfl,
   (get_delegate_inverts_hint (sampleEngine true true 0 0) false sampleFetch sampleInterpreter
      sampleBuffer (JsValue.string "m.tflite") [] "m.tflite").1 "core-ml" _ _
      (Or.inr (Or.inl rfl)) rfl,
   (get_delegate_inverts_hint (sampleEngine true true 0 0) false sampleFetch sampleInterpreter
      sampleBuffer (JsValue.string "m.tflite") [] "m.tflite").1 "default" _ _
      (Or.inl rfl) rfl,
   (get_delegate_inverts_hint (sampleEngine true true 0 0) false sampleFetch sampleInterpreter
      sampleBuffer (JsValue.string "m.tflite") [] "m.tflite").2.2 _ sampleState.plugin
      rfl (by decide)⟩

/-! ## Running a session: the input count -/

/-- C1: for every session (with a live interpreter) and every input sequence
whose length differs from the number of input tensors, both `runSync` and `run`
fail with the count-mismatch error, leave the session untouched, and their
trace is empty: the engine is never invoked and nothing is settled or queued. -/
theorem count_mismatch_fails_without_invoke (tf : TfLite) (s : State)
    (interpreter : TfLiteInterpreter) (inputValues : List (List Nat))
    (hlive : s.plugin._interpreter = some interpreter)
    (hcount : inputValues.length ≠ interpreter.inputs.length) :
    get_runSync tf s inputValues =
      (Except.error (Error.runtime_error
        "TFLite: Input Values have different size than there are input tensors!"), s, []) ∧
    get_run tf s inputValues =
      (Except.error (Error.runtime_error
        "TFLite: Input Values have different size than there are input tensors!"), s, []) ∧
    Call.TfLiteInterpreterInvoke ∉ engineCalls (get_runSync tf s inputValues).2.2 ∧
    Call.TfLiteInterpreterInvoke ∉ engineCalls (get_run tf s inputValues).2.2 := by
  have hcopy : copyInputBuffers s inputValues =
      (Except.error (Error.runtime_error
        "TFLite: Input Values have different size than there are input tensors!"), s) := by
    simp [copyInputBuffers, hlive, hcount]
  have h1 : get_runSync tf s inputValues =
      (Except.error (Error.runtime_error
        "TFLite: Input Values have different size than there are input tensors!"), s, []) := by
    simp [get_runSync, hcopy]
  have h2 : get_run tf s inputValues =
      (Except.error (Error.runtime_error
        "TFLite: Input Values have different size than there are input tensors!"), s, []) := by
    simp [get_run, hcopy]
  refine ⟨h1, h2, ?_, ?_⟩
  · rw [h1]; simp [engineCalls]
  · rw [h2]; simp [engineCalls]

/-- C1, on the sample session (one input tensor) with two input values. -/
theorem count_mismatch_fails_without_invoke_witness :
    get_runSync (sampleEngine true true 0 0) sampleState [[1, 2, 3, 4], [5]] =
      (Except.error (Error.runtime_error
        "TFLite: Input Values have different size than there are input tensors!"),
        sampleState, []) ∧
    get_run (sampleEngine true true 0 0) sampleState [[1, 2, 3, 4], [5]] =
      (Except.error (Error.runtime_error
        "TFLite: Input Values have different size than there are input tensors!"),
        sampleState, []) :=
  ⟨(count_mismatch_fails_without_invoke (sampleEngine true true 0 0) sampleState
      sampleInterpreter [[1, 2, 3, 4], [5]] rfl (by decide)).1,
   (count_mismatch_fails_without_invoke (sampleEngine true true 0 0) sampleState
      sampleInterpreter [[1, 2, 3, 4], [5]] rfl (by decide)).2.1⟩

/-! ## The destructor -/

/-- C9, at the failing input: destroying the sample session, which holds a
non-null engine handle and the model buffer at address 7.  The destructor frees
the model bytes first and deletes the interpreter second, while the engine
built over those bytes is still alive; the claimed order is engine handle
first, buffer second.  Each release happens exactly once and both fields end
null with size 0. -/
theorem destructor_frees_buffer_before_engine :
    sampleState.plugin._interpreter = some sampleInterpreter ∧
    sampleState.plugin._model = { data := some 7, size := 16 } ∧
    sampleState.plugin.destructor.2 = [Call.free 7, Call.TfLiteInterpreterDelete] ∧
    sampleState.plugin.destructor.2 ≠ [Call.TfLiteInterpreterDelete, Call.free 7] ∧
    sampleState.plugin.destructor.1._interpreter = none ∧
    sampleState.plugin.destructor.1._model = { data := none, size := 0 } := by
  decide

/-! ## The loader: failure paths -/

/-- C5, as stated, fails for CoreML in a build without it: the model parses,
the promise is rejected, and the message does not contain "not supported". -/
theorem coreml_rejection_counterexample :
    loadExecutor (sampleEngine true true 0 0) false sampleFetch "m.tflite" Delegate.CoreML =
      Except.ok
        [Event.call Call.TfLiteModelCreate, Event.call Call.TfLiteInterpreterOptionsCreate,
         Event.invokeAsync (LoadCallback.reject
          "CoreML Delegate is not enabled! Set $EnableCoreMLDelegate to true in Podfile and rebuild.")] ∧
    loadSettlements
        [Event.call Call.TfLiteModelCreate, Event.call Call.TfLiteInterpreterOptionsCreate,
         Event.invokeAsync (LoadCallback.reject
          "CoreML Delegate is not enabled! Set $EnableCoreMLDelegate to true in Podfile and rebuild.")]
      = [Settlement.reject
          "CoreML Delegate is not enabled! Set $EnableCoreMLDelegate to true in Podfile and rebuild."] ∧
    messageContains
        "CoreML Delegate is not enabled! Set $EnableCoreMLDelegate to true in Podfile and rebuild."
        "not supported" = false := by
  refine ⟨rfl, rfl, ?_⟩
  decide

/-- C5, amended: for every load call that requests a backend unavailable in the
build and whose model bytes parse, the promise is rejected and neither
interpreter creation nor tensor allocation has been called before the
rejection.  For Metal (unavailable in every build) the message contains
"not supported"; for CoreML in a build without it the message says the
delegate is "not enabled". -/
theorem unavailable_backend_rejected (tf : TfLite) (coreMLEnabled : Bool)
    (fetchURL : String → Except Error Buffer) (modelPath : String) (buffer : Buffer)
    (model : TfLiteModel) (hfetch : fetchURL modelPath = Except.ok buffer)
    (hparse : tf.ModelCreate buffer = some model) :
    (∃ events message,
      loadExecutor tf coreMLEnabled fetchURL modelPath Delegate.Metal = Except.ok events ∧
      loadSettlements events = [Settlement.reject message] ∧
      messageContains message "not supported" = true ∧
      engineCalls events = [Call.TfLiteModelCreate, Call.TfLiteInterpreterOptionsCreate] ∧
      Call.TfLiteInterpreterCreate ∉ engineCalls events ∧
      Call.TfLiteInterpreterAllocateTensors ∉ engineCalls events) ∧
    (∃ events message,
      loadExecutor tf false fetchURL modelPath Delegate.CoreML = Except.ok events ∧
      loadSettlements events = [Settlement.reject message] ∧
      messageContains message "not enabled" = true ∧
      engineCalls events = [Call.TfLiteModelCreate, Call.TfLiteInterpreterOptionsCreate] ∧
      Call.TfLiteInterpreterCreate ∉ engineCalls events ∧
      Call.TfLiteInterpreterAllocateTensors ∉ engineCalls events) := by
  constructor
  · refine ⟨[Event.call Call.TfLiteModelCreate, Event.call Call.TfLiteInterpreterOptionsCreate,
        Event.invokeAsync (LoadCallback.reject "Metal Delegate is not supported!")],
      "Metal Delegate is not supported!", ?_, ?_, by decide, ?_, ?_, ?_⟩
    · simp only [loadExecutor, hfetch, hparse, loadTask, delegateSwitch]
      rfl
    · rfl
    · rfl
    · decide
    · decide
  · refine ⟨[Event.call Call.TfLiteModelCreate, Event.call Call.TfLiteInterpreterOptionsCreate,
        Event.invokeAsync (LoadCallback.reject
          "CoreML Delegate is not enabled! Set $EnableCoreMLDelegate to true in Podfile and rebuild.")],
      "CoreML Delegate is not enabled! Set $EnableCoreMLDelegate to true in Podfile and rebuild.",
      ?_, ?_, by decide, ?_, ?_, ?_⟩
    · simp only [loadExecutor, hfetch, hparse, loadTask, delegateSwitch]
      rfl
    · rfl
    · rfl
    · decide
    · decide

/-- C5, amended, on the sample engine. -/
theorem unavailable_backend_rejected_witness :
    (∃ events message,
      loadExecutor (sampleEngine true true 0 0) true sampleFetch "m.tflite" Delegate.Metal
        = Except.ok events ∧
      loadSettlements events = [Settlement.reject message] ∧
      messageContains message "not supported" = true ∧
      engineCalls events = [Call.TfLiteModelCreate, Call.TfLiteInterpreterOptionsCreate] ∧
      Call.TfLiteInterpreterCreate ∉ engineCalls events ∧
      Call.TfLiteInterpreterAllocateTensors ∉ engineCalls events) :=
  (unavailable_backend_rejected (sampleEngine true true 0 0) true sampleFetch "m.tflite"
    sampleBuffer 1 rfl rfl).1

/-- C6, at the failing input: the model parses, the interpreter is created and
tensor allocation reports status 1.  The constructor throws an error whose
message carries the status, the exception leaves the task uncaught, and the
promise receives no settlement at all: it is neither rejected nor resolved. -/
theorem allocation_failure_never_settles :
    loadExecutor (sampleEngine true true 1 0) false sampleFetch "m.tflite" Delegate.Default =
      Except.ok
        [Event.call Call.TfLiteModelCreate, Event.call Call.TfLiteInterpreterOptionsCreate,
         Event.call Call.TfLiteInterpreterCreate,
         Event.call Call.TfLiteInterpreterAllocateTensors] ∧
    loadSettlements
        [Event.call Call.TfLiteModelCreate, Event.call Call.TfLiteInterpreterOptionsCreate,
         Event.call Call.TfLiteInterpreterCreate,
         Event.call Call.TfLiteInterpreterAllocateTensors] = [] ∧
    (loadTask (sampleEngine true true 1 0) false "m.tflite" sampleBuffer (some 1)
        Delegate.Default).2 =
      some (Error.runtime_error
        "Failed to allocate memory for input/output tensors! Status: 1") := by
  refine ⟨rfl, rfl, ?_⟩
  decide

/-- C7, at the failing inputs: on each failure path of the loader (the model
does not parse, the backend is unsupported, the interpreter is not created,
tensor allocation fails) the fetched buffer at address 7 is freed zero times,
not once.  On the success path it is freed zero times as well and the resolved
session owns it. -/
theorem load_failure_never_frees :
    Except.map (freeCount 7)
      (loadExecutor (sampleEngine false true 0 0) false sampleFetch "m.tflite" Delegate.Default)
      = Except.ok 0 ∧
    Except.map (freeCount 7)
      (loadExecutor (sampleEngine true true 0 0) false sampleFetch "m.tflite" Delegate.Metal)
      = Except.ok 0 ∧
    Except.map (freeCount 7)
      (loadExecutor (sampleEngine true false 0 0) false sampleFetch "m.tflite" Delegate.Default)
      = Except.ok 0 ∧
    Except.map (freeCount 7)
      (loadExecutor (sampleEngine true true 1 0) false sampleFetch "m.tflite" Delegate.Default)
      = Except.ok 0 ∧
    Except.map (freeCount 7)
      (loadExecutor (sampleEngine true true 0 0) false sampleFetch "m.tflite" Delegate.Default)
      = Except.ok 0 ∧
    Except.map loadSettlements
      (loadExecutor (sampleEngine true true 0 0) false sampleFetch "m.tflite" Delegate.Default)
      = Except.ok [Settlement.resolve sampleState.plugin] ∧
    sampleState.plugin._model = sampleBuffer := by
  refine ⟨rfl, rfl, rfl, rfl, rfl, rfl, rfl⟩

/-- C8, at the failing input: `run` on the sample session with an engine whose
invoke reports status 1.  The task catches the error and calls
`promise->reject` itself: the rejection is in the trace as a direct settlement,
not inside a callback handed to the call-invoker. -/
theorem run_failure_rejects_directly :
    (get_run (sampleEngine true true 0 1) sampleState [[1, 2, 3, 4]]).1 = Except.ok () ∧
    (get_run (sampleEngine true true 0 1) sampleState [[1, 2, 3, 4]]).2.2 =
      [Event.call Call.TfLiteInterpreterInvoke,
       Event.reject "Failed to run TFLite Model! Status: 1"] ∧
    directSettlements (get_run (sampleEngine true true 0 1) sampleState [[1, 2, 3, 4]]).2.2 =
      ["Failed to run TFLite Model! Status: 1"] := by
  refine ⟨rfl, ?_, ?_⟩ <;> decide

/-! ## Running a session: `runSync` against `run` -/

/-- C2: for every session, every engine (a function of the interpreter state,
hence of the input tensors) and every input sequence, `runSync` returns the
output sequence `result` and leaves the state `after` exactly when `run` hands
back a promise that, once the call-invoker has run the queued callback, is
resolved with that same `result` and leaves that same state `after`.  In that
case both traces hold exactly one engine call, the invoke between copy-in and
copy-out. -/
theorem runSync_agrees_with_run (tf : TfLite) (s : State) (inputValues : List (List Nat))
    (result : List Nat) (after : State) :
    (((get_runSync tf s inputValues).1 = Except.ok result ∧
        (get_runSync tf s inputValues).2.1 = after) ↔
      ((get_run tf s inputValues).1 = Except.ok () ∧
        runSettlements (get_run tf s inputValues).2.1 (get_run tf s inputValues).2.2
          = ([Settlement.resolve result], after))) ∧
    ((get_runSync tf s inputValues).1 = Except.ok result →
      engineCalls (get_runSync tf s inputValues).2.2 = [Call.TfLiteInterpreterInvoke] ∧
      engineCalls (get_run tf s inputValues).2.2 = [Call.TfLiteInterpreterInvoke]) := by
  simp only [get_runSync, get_run]
  rcases hc : copyInputBuffers s inputValues with ⟨e | u, s1⟩
  · simp
  · simp only [run]
    cases hi : s1.plugin._interpreter with
    | none =>
      simp [runSettlements, copyOutputBuffers, hi, engineCalls]
    | some interpreter =>
      by_cases hst : (tf.InterpreterInvoke interpreter).1 = kTfLiteOk
      · simp [hst, runSettlements, RunCallback.invoke, copyOutputBuffers, engineCalls]
      · simp [hst, runSettlements, engineCalls]

/-- C2, on the sample session: `runSync` returns the typed array 0 and `run`
resolves its promise with the typed array 0, in the same final state. -/
theorem runSync_agrees_with_run_witness :
    (get_run (sampleEngine true true 0 0) sampleState [[1, 2, 3, 4]]).1 = Except.ok () ∧
    runSettlements (get_run (sampleEngine true true 0 0) sampleState [[1, 2, 3, 4]]).2.1
        (get_run (sampleEngine true true 0 0) sampleState [[1, 2, 3, 4]]).2.2
      = ([Settlement.resolve [0]],
          (get_runSync (sampleEngine true true 0 0) sampleState [[1, 2, 3, 4]]).2.1) :=
  (runSync_agrees_with_run (sampleEngine true true 0 0) sampleState [[1, 2, 3, 4]] [0]
    (get_runSync (sampleEngine true true 0 0) sampleState [[1, 2, 3, 4]]).2.1).1.mp
    ⟨rfl, rfl⟩

/-! ## The cache of output typed arrays -/

/-- A successful lookup finds an entry of the cache. -/
theorem lookup_mem (cache : List (String × Nat)) (name : String) (array : Nat)
    (h : cache.lookup name = some array) : (name, array) ∈ cache := by
  induction cache with
  | nil => simp at h
  | cons entry rest ih =>
    obtain ⟨k, v⟩ := entry
    rw [List.lookup_cons] at h
    by_cases hk : name = k
    · subst hk
      simp at h
      subst h
      exact List.mem_cons_self _ _
    · have hb : (name == k) = false := by simpa using hk
      rw [hb] at h
      exact List.mem_cons_of_mem _ (ih h)

/-- The copy-out loop over a concatenation is the loop over the first part
followed by the loop over the second. -/
theorem copyOutputLoop_append (s : State) (xs ys : List TfLiteTensor) :
    (copyOutputLoop s (xs ++ ys)).2 = (copyOutputLoop (copyOutputLoop s xs).2 ys).2 ∧
    (copyOutputLoop s (xs ++ ys)).1 =
      (copyOutputLoop s xs).1 ++ (copyOutputLoop (copyOutputLoop s xs).2 ys).1 := by
  induction xs generalizing s with
  | nil => simp [copyOutputLoop]
  | cons x rest ih =>
    simp only [List.cons_append, copyOutputLoop]
    exact ⟨(ih _).1, congrArg (List.cons _) (ih _).2⟩

/-- One round of the copy-out loop on a well-formed state: the state stays
well formed, the buffer under the tensor name holds the tensor bytes, and the
buffers under all other names keep their contents. -/
theorem copyOutputStep_spec (s : State) (tensor : TfLiteTensor) (hwf : s.WellFormed) :
    (copyOutputLoop s [tensor]).2.WellFormed ∧
    cachedContents (copyOutputLoop s [tensor]).2 tensor.name = some tensor.bytes ∧
    (∀ name, name ≠ tensor.name →
      cachedContents (copyOutputLoop s [tensor]).2 name = cachedContents s name) := by
  obtain ⟨hlive, hnodup⟩ := hwf
  simp only [copyOutputLoop, getOutputArrayForTensor]
  cases hlook : s.plugin._outputBuffers.lookup tensor.name with
  | some array =>
    have hmem := lookup_mem _ _ _ hlook
    have hlt := hlive _ hmem
    simp only at hlt
    refine ⟨⟨?_, ?_⟩, ?_, ?_⟩
    · intro entry he
      simpa [updateJSBufferFromTensor] using hlive entry he
    · simpa using hnodup
    · simp [cachedContents, hlook, updateJSBufferFromTensor, hlt]
    · intro name hne
      simp only [cachedContents, updateJSBufferFromTensor]
      cases hl2 : s.plugin._outputBuffers.lookup name with
      | none => rfl
      | some other =>
        have hmem2 := lookup_mem _ _ _ hl2
        have hne2 : array ≠ other := by
          intro heq
          subst heq
          have := List.inj_on_of_nodup_map hnodup hmem hmem2 rfl
          simp at this
          exact hne this.symm
        simp [List.getElem?_set_ne hne2]
  | none =>
    refine ⟨⟨?_, ?_⟩, ?_, ?_⟩
    · intro entry he
      simp only [updateJSBufferFromTensor, List.length_set, List.length_append,
        List.length_singleton]
      simp only [List.mem_cons] at he
      rcases he with rfl | he
      · simp
      · have := hlive entry he
        omega
    · simp only [List.map_cons, List.nodup_cons]
      refine ⟨?_, hnodup⟩
      intro hin
      rcases List.mem_map.mp hin with ⟨entry, he, heq⟩
      have := hlive entry he
      omega
    · simp [cachedContents, updateJSBufferFromTensor]
    · intro name hne
      have hb : (name == tensor.name) = false := by simpa using hne
      simp only [cachedContents, updateJSBufferFromTensor, List.lookup_cons, hb]
      cases hl2 : s.plugin._outputBuffers.lookup name with
      | none => rfl
      | some other =>
        have hlt := hlive _ (lookup_mem _ _ _ hl2)
        simp only at hlt
        have hne2 : s.runtime.typedArrays.length ≠ other := by omega
        simp [List.getElem?_set_ne hne2, List.getElem?_append_left hlt]

/-- The copy-out loop on a well-formed state: the state stays well formed and
the buffer under each name holds the bytes of the last tensor of that name. -/
theorem copyOutputLoop_spec (outputs : List TfLiteTensor) :
    ∀ s : State, s.WellFormed →
      (copyOutputLoop s outputs).2.WellFormed ∧
      ∀ name tensor, lastNamed outputs name = some tensor →
        cachedContents (copyOutputLoop s outputs).2 name = some tensor.bytes := by
  induction outputs using List.reverseRecOn with
  | nil =>
    intro s hwf
    exact ⟨hwf, by intro name tensor h; simp [lastNamed] at h⟩
  | append_singleton xs t ih =>
    intro s hwf
    obtain ⟨hwf1, hcontents⟩ := ih s hwf
    have hstep := copyOutputStep_spec (copyOutputLoop s xs).2 t hwf1
    rw [(copyOutputLoop_append s xs [t]).1]
    refine ⟨hstep.1, ?_⟩
    intro name tensor hlast
    simp only [lastNamed, List.reverse_append, List.reverse_singleton, List.singleton_append,
      List.find?_cons] at hlast
    by_cases hn : t.name = name
    · simp [hn] at hlast
      subst hlast
      rw [← hn]
      exact hstep.2.1
    · have hb : (t.name == name) = false := by simpa using hn
      rw [hb] at hlast
      rw [hstep.2.2 name (fun h => hn h.symm)]
      exact hcontents name tensor hlast

/-- The copy-out loop never rebinds a name that is already in the cache. -/
theorem copyOutputLoop_keeps (outputs : List TfLiteTensor) :
    ∀ (s : State) (name : String) (array : Nat),
      s.plugin._outputBuffers.lookup name = some array →
      (copyOutputLoop s outputs).2.plugin._outputBuffers.lookup name = some array := by
  induction outputs with
  | nil => intro s name array h; simpa [copyOutputLoop] using h
  | cons t rest ih =>
    intro s name array h
    simp only [copyOutputLoop]
    apply ih
    simp only [getOutputArrayForTensor]
    cases hlook : s.plugin._outputBuffers.lookup t.name with
    | some found => simpa using h
    | none =>
      have hne : name ≠ t.name := by
        intro heq
        rw [heq, hlook] at h
        cases h
      have hb : (name == t.name) = false := by simpa using hne
      simp [List.lookup_cons, hb, h]

/-- When no two tensors of a list share a name, each tensor is the last one of
its name. -/
theorem lastNamed_of_nodup (tensors : List TfLiteTensor)
    (hdistinct : (tensors.map (fun tensor => tensor.name)).Nodup) (tensor : TfLiteTensor)
    (hmem : tensor ∈ tensors) : lastNamed tensors tensor.name = some tensor := by
  have key : ∀ l : List TfLiteTensor, (l.map (fun t => t.name)).Nodup → tensor ∈ l →
      l.find? (fun t => t.name == tensor.name) = some tensor := by
    intro l
    induction l with
    | nil => intro _ h; cases h
    | cons y ys ih =>
      intro hnd hin
      rw [List.map_cons, List.nodup_cons] at hnd
      rcases List.mem_cons.mp hin with rfl | hin
      · simp [List.find?_cons]
      · have hne : y.name ≠ tensor.name := by
          intro heq
          exact hnd.1 (heq ▸ List.mem_map_of_mem (fun t => t.name) hin)
        have hb : (y.name == tensor.name) = false := by simpa using hne
        rw [List.find?_cons, hb]
        exact ih hnd.2 hin
  unfold lastNamed
  apply key
  · rw [List.map_reverse]
    exact List.nodup_reverse.mpr hdistinct
  · exact List.mem_reverse.mpr hmem

/-- Well-formedness only reads the cache and the typed arrays. -/
theorem wellFormed_of_same_cache (s1 s2 : State)
    (hcache : s2.plugin._outputBuffers = s1.plugin._outputBuffers)
    (hruntime : s2.runtime = s1.runtime) (hwf : s1.WellFormed) : s2.WellFormed := by
  unfold State.WellFormed at *
  rw [hcache, hruntime]
  exact hwf

/-- The copy-in leaves the cache and the typed arrays alone. -/
theorem copyInputBuffers_frame (s : State) (inputValues : List (List Nat)) :
    (copyInputBuffers s inputValues).2.plugin._outputBuffers = s.plugin._outputBuffers ∧
    (copyInputBuffers s inputValues).2.runtime = s.runtime := by
  unfold copyInputBuffers
  cases hi : s.plugin._interpreter with
  | none => simp
  | some interpreter =>
    by_cases hcount : inputValues.length = interpreter.inputs.length
    · cases hc : (copyInputLoop interpreter.inputs inputValues).2 <;> simp [hcount, hc]
    · simp [hcount]

/-- The engine invocation leaves the cache and the typed arrays alone. -/
theorem run_frame (tf : TfLite) (s : State) :
    (run tf s).2.1.plugin._outputBuffers = s.plugin._outputBuffers ∧
    (run tf s).2.1.runtime = s.runtime := by
  unfold run
  cases hi : s.plugin._interpreter with
  | none => simp
  | some interpreter =>
    by_cases hst : (tf.InterpreterInvoke interpreter).1 = kTfLiteOk <;> simp [hst]

/-- The copy-out loop leaves the interpreter alone. -/
theorem copyOutputLoop_interpreter (outputs : List TfLiteTensor) :
    ∀ s : State, (copyOutputLoop s outputs).2.plugin._interpreter = s.plugin._interpreter := by
  induction outputs with
  | nil => intro s; rfl
  | cons t rest ih =>
    intro s
    simp only [copyOutputLoop]
    rw [ih]
    simp only [getOutputArrayForTensor]
    cases s.plugin._outputBuffers.lookup t.name <;> rfl

/-- After `getOutputArrayForTensor` the returned array is the one cached under
the tensor name. -/
theorem getOutputArrayForTensor_lookup (s : State) (tensor : TfLiteTensor) :
    (getOutputArrayForTensor s tensor).2.plugin._outputBuffers.lookup tensor.name =
      some (getOutputArrayForTensor s tensor).1 := by
  simp only [getOutputArrayForTensor]
  cases hlook : s.plugin._outputBuffers.lookup tensor.name with
  | some array => simpa using hlook
  | none => simp [List.lookup_cons]

/-- The result of the copy-out loop holds, for each output tensor in order, the
array cached under its name. -/
theorem copyOutputLoop_refs (outputs : List TfLiteTensor) :
    ∀ s : State, (copyOutputLoop s outputs).1.map some =
      outputs.map (fun tensor =>
        (copyOutputLoop s outputs).2.plugin._outputBuffers.lookup tensor.name) := by
  induction outputs with
  | nil => intro s; rfl
  | cons t rest ih =>
    intro s
    simp only [copyOutputLoop, List.map_cons]
    congr 1
    · symm
      apply copyOutputLoop_keeps
      exact getOutputArrayForTensor_lookup s t
    · exact ih _

/-- A `runSync` that returns its outputs ends with the copy-out loop, run on a
state whose cache and typed arrays are those the call started with. -/
theorem runSync_ok_state (tf : TfLite) (s : State) (inputValues : List (List Nat))
    (result : List Nat) (hok : (get_runSync tf s inputValues).1 = Except.ok result) :
    ∃ (before : State) (interpreter : TfLiteInterpreter),
      before.plugin._interpreter = some interpreter ∧
      before.plugin._outputBuffers = s.plugin._outputBuffers ∧
      before.runtime = s.runtime ∧
      (get_runSync tf s inputValues).2.1 = (copyOutputLoop before interpreter.outputs).2 ∧
      result = (copyOutputLoop before interpreter.outputs).1 := by
  have hin := copyInputBuffers_frame s inputValues
  simp only [get_runSync] at hok ⊢
  rcases hc : copyInputBuffers s inputValues with ⟨e | u, s1⟩
  · simp [hc] at hok
  · rw [hc] at hin
    have hrun := run_frame tf s1
    simp only [hc] at hok ⊢
    rcases hr : run tf s1 with ⟨e | u, s2, calls⟩
    · simp [hr] at hok
    · rw [hr] at hrun
      simp only [hr] at hok ⊢
      simp only [copyOutputBuffers] at hok ⊢
      cases hi : s2.plugin._interpreter with
      | none => simp [hi] at hok
      | some interpreter =>
        simp only [hi] at hok ⊢
        refine ⟨s2, interpreter, hi, ?_, ?_, rfl, ?_⟩
        · exact hrun.1.trans hin.1
        · exact hrun.2.trans hin.2
        · injection hok with hok
          exact hok.symm

/-- When the promise of `run` is resolved, `runSync` returns the same result and
both leave the same state. -/
theorem run_resolved_state (tf : TfLite) (s : State) (inputValues : List (List Nat))
    (result : List Nat) (hok : (get_run tf s inputValues).1 = Except.ok ())
    (hres : (runSettlements (get_run tf s inputValues).2.1 (get_run tf s inputValues).2.2).1
      = [Settlement.resolve result]) :
    (get_runSync tf s inputValues).1 = Except.ok result ∧
    (runSettlements (get_run tf s inputValues).2.1 (get_run tf s inputValues).2.2).2
      = (get_runSync tf s inputValues).2.1 := by
  simp only [get_runSync, get_run] at hok hres ⊢
  rcases hc : copyInputBuffers s inputValues with ⟨e | u, s1⟩
  · simp [hc] at hok
  · simp only [hc, run] at hok hres ⊢
    cases hi : s1.plugin._interpreter with
    | none => simp [hi, runSettlements] at hres
    | some interpreter =>
      by_cases hst : (tf.InterpreterInvoke interpreter).1 = kTfLiteOk
      · simp [hi, hst, runSettlements, RunCallback.invoke, copyOutputBuffers] at hres ⊢
        exact hres
      · simp [hi, hst, runSettlements] at hres

/-- The copy-out loop on a well-formed state with distinct output names leaves
each output tensor in the array cached under its name. -/
theorem loop_contents_of_nodup (s : State) (interpreter : TfLiteInterpreter)
    (hwf : s.WellFormed) :
    (copyOutputLoop s interpreter.outputs).2.WellFormed ∧
    ((interpreter.outputs.map (fun output => output.name)).Nodup →
      ∀ output ∈ interpreter.outputs,
        cachedContents (copyOutputLoop s interpreter.outputs).2 output.name
          = some output.bytes) := by
  have hloop := copyOutputLoop_spec interpreter.outputs s hwf
  exact ⟨hloop.1, fun hd output hmem => hloop.2 _ _ (lastNamed_of_nodup _ hd output hmem)⟩

/-- After a `runSync` that returns its outputs on a well-formed cache: the cache
is well formed, cached names keep their arrays, the result lists the arrays
cached under the output names, and with distinct output names each array holds
its tensor. -/
theorem runSync_ok_contents (tf : TfLite) (s : State) (inputValues : List (List Nat))
    (result : List Nat) (hwf : s.WellFormed)
    (hok : (get_runSync tf s inputValues).1 = Except.ok result) :
    (get_runSync tf s inputValues).2.1.WellFormed ∧
    (∀ name array, s.plugin._outputBuffers.lookup name = some array →
      (get_runSync tf s inputValues).2.1.plugin._outputBuffers.lookup name = some array) ∧
    ∃ interpreter : TfLiteInterpreter,
      (get_runSync tf s inputValues).2.1.plugin._interpreter = some interpreter ∧
      result.map some = interpreter.outputs.map (fun output =>
        (get_runSync tf s inputValues).2.1.plugin._outputBuffers.lookup output.name) ∧
      ((interpreter.outputs.map (fun output => output.name)).Nodup →
        ∀ output ∈ interpreter.outputs,
          cachedContents (get_runSync tf s inputValues).2.1 output.name = some output.bytes) := by
  obtain ⟨before, interpreter, hi, hcache, hruntime, hstate, hresult⟩ :=
    runSync_ok_state tf s inputValues result hok
  have hwf2 : before.WellFormed := wellFormed_of_same_cache s before hcache hruntime hwf
  have hloop := loop_contents_of_nodup before interpreter hwf2
  rw [hstate, hresult]
  refine ⟨hloop.1, ?_, interpreter, ?_, copyOutputLoop_refs _ _, hloop.2⟩
  · intro name array hlook
    apply copyOutputLoop_keeps
    rw [hcache]
    exact hlook
  · rw [copyOutputLoop_interpreter]
    exact hi

/-- C3, as stated, fails in two ways.  When two output tensors share a name: one
run over the session `twinState` (empty cache, outputs "out" = [1] and
"out" = [2]) returns the same typed array twice, its contents are [2], and so it
does not hold the contents of each tensor it was returned for.  And after a run
that fails: on the sample session after one good run, a `runSync` whose invoke
reports status 1 leaves the output tensor at [4, 4] and the array cached under
its name at [10, 10], since nothing is copied out. -/
theorem shared_name_counterexample :
    twinState.WellFormed ∧
    (copyOutputBuffers twinState).1 = Except.ok [0, 0] ∧
    cachedContents (copyOutputBuffers twinState).2 "out" = some [2] ∧
    ¬ (∀ tensor ∈ [({ name := "out", bytes := [1] } : TfLiteTensor), { name := "out", bytes := [2] }],
        cachedContents (copyOutputBuffers twinState).2 tensor.name = some tensor.bytes) ∧
    (get_runSync (sampleEngine true true 0 1)
        (get_runSync (sampleEngine true true 0 0) sampleState [[1, 2, 3, 4]]).2.1
        [[1, 1, 1, 1]]).1
      = Except.error (Error.runtime_error "Failed to run TFLite Model! Status: 1") ∧
    (get_runSync (sampleEngine true true 0 1)
        (get_runSync (sampleEngine true true 0 0) sampleState [[1, 2, 3, 4]]).2.1
        [[1, 1, 1, 1]]).2.1.plugin._interpreter
      = some { inputs := [{ name := "in", bytes := [1, 1, 1, 1] }],
               outputs := [{ name := "out", bytes := [4, 4] }] } ∧
    cachedContents
        (get_runSync (sampleEngine true true 0 1)
          (get_runSync (sampleEngine true true 0 0) sampleState [[1, 2, 3, 4]]).2.1
          [[1, 1, 1, 1]]).2.1 "out"
      = some [10, 10] := by
  refine ⟨by decide, rfl, by decide, by decide, rfl, rfl, by decide⟩

/-- C3, amended: the output-buffer cache has lookup-or-create semantics keyed by
tensor name.  For every state and tensor, `getOutputArrayForTensor` returns the
cached buffer when the name is present, creating nothing and leaving the state
unchanged; otherwise it creates one buffer, stores it under the name and
returns it.  Hence a second read for the same name returns the same buffer and
changes nothing.  The empty cache is well formed.  After each run that
completes on a well-formed cache (`runSync` returns its outputs, or the promise
of `run` is resolved), the cache is well formed again, every name cached before
still holds the same buffer, the returned sequence lists the buffers cached
under the output tensor names, and, when the output tensor names are distinct,
each output tensor's buffer holds that tensor's current contents. -/
theorem outputBuffers_lookup_or_create (s : State) (tensor other : TfLiteTensor) :
    (∀ array, s.plugin._outputBuffers.lookup tensor.name = some array →
      getOutputArrayForTensor s tensor = (array, s)) ∧
    (s.plugin._outputBuffers.lookup tensor.name = none →
      getOutputArrayForTensor s tensor =
        (s.runtime.typedArrays.length,
          { plugin := { s.plugin with
              _outputBuffers := (tensor.name, s.runtime.typedArrays.length)
                :: s.plugin._outputBuffers },
            runtime :=
              { typedArrays := s.runtime.typedArrays ++ [createJSBufferForTensor tensor] } })) ∧
    (other.name = tensor.name →
      getOutputArrayForTensor (getOutputArrayForTensor s tensor).2 other =
        ((getOutputArrayForTensor s tensor).1, (getOutputArrayForTensor s tensor).2)) ∧
    (s.plugin._outputBuffers = [] → s.WellFormed) ∧
    (∀ (tf : TfLite) (inputValues : List (List Nat)) (result : List Nat),
      s.WellFormed → (get_runSync tf s inputValues).1 = Except.ok result →
      (get_runSync tf s inputValues).2.1.WellFormed ∧
      (∀ name array, s.plugin._outputBuffers.lookup name = some array →
        (get_runSync tf s inputValues).2.1.plugin._outputBuffers.lookup name = some array) ∧
      ∃ interpreter : TfLiteInterpreter,
        (get_runSync tf s inputValues).2.1.plugin._interpreter = some interpreter ∧
        result.map some = interpreter.outputs.map (fun output =>
          (get_runSync tf s inputValues).2.1.plugin._outputBuffers.lookup output.name) ∧
        ((interpreter.outputs.map (fun output => output.name)).Nodup →
          ∀ output ∈ interpreter.outputs,
            cachedContents (get_runSync tf s inputValues).2.1 output.name
              = some output.bytes)) ∧
    (∀ (tf : TfLite) (inputValues : List (List Nat)) (result : List Nat),
      s.WellFormed → (get_run tf s inputValues).1 = Except.ok () →
      (runSettlements (get_run tf s inputValues).2.1 (get_run tf s inputValues).2.2).1
        = [Settlement.resolve result] →
      (runSettlements (get_run tf s inputValues).2.1
        (get_run tf s inputValues).2.2).2.WellFormed ∧
      (∀ name array, s.plugin._outputBuffers.lookup name = some array →
        (runSettlements (get_run tf s inputValues).2.1
          (get_run tf s inputValues).2.2).2.plugin._outputBuffers.lookup name = some array) ∧
      ∃ interpreter : TfLiteInterpreter,
        (runSettlements (get_run tf s inputValues).2.1
          (get_run tf s inputValues).2.2).2.plugin._interpreter = some interpreter ∧
        result.map some = interpreter.outputs.map (fun output =>
          (runSettlements (get_run tf s inputValues).2.1
            (get_run tf s inputValues).2.2).2.plugin._outputBuffers.lookup output.name) ∧
        ((interpreter.outputs.map (fun output => output.name)).Nodup →
          ∀ output ∈ interpreter.outputs,
            cachedContents (runSettlements (get_run tf s inputValues).2.1
              (get_run tf s inputValues).2.2).2 output.name = some output.bytes)) := by
  refine ⟨?_, ?_, ?_, ?_, ?_, ?_⟩
  · intro array h
    simp [getOutputArrayForTensor, h]
  · intro h
    simp [getOutputArrayForTensor, h]
  · intro hname
    cases hlook : s.plugin._outputBuffers.lookup tensor.name with
    | some array => simp [getOutputArrayForTensor, hlook, hname]
    | none => simp [getOutputArrayForTensor, hlook, hname, List.lookup_cons]
  · intro hempty
    constructor
    · intro entry he
      rw [hempty] at he
      cases he
    · rw [hempty]
      exact List.nodup_nil
  · intro tf inputValues result hwf hok
    exact runSync_ok_contents tf s inputValues result hwf hok
  · intro tf inputValues result hwf hok hres
    obtain ⟨hsync, hstate⟩ := run_resolved_state tf s inputValues result hok hres
    rw [hstate]
    exact runSync_ok_contents tf s inputValues result hwf hsync

/-- C3, amended, at concrete states: a miss on the fresh sample session creates
typed array 0; a hit on the session after one run returns typed array 0 and
changes nothing; a second read on the sample session returns the buffer of the
first; and after a completed `runSync`, and after a resolved `run`, on the
sample session (empty cache, one output "out") the buffer cached under "out"
holds the output tensor's bytes [10, 10]. -/
theorem outputBuffers_lookup_or_create_witness :
    (getOutputArrayForTensor sampleState { name := "out", bytes := [0, 0] }).1 = 0 ∧
    getOutputArrayForTensor
        (get_runSync (sampleEngine true true 0 0) sampleState [[1, 2, 3, 4]]).2.1
        { name := "out", bytes := [10, 10] }
      = (0, (get_runSync (sampleEngine true true 0 0) sampleState [[1, 2, 3, 4]]).2.1) ∧
    getOutputArrayForTensor
        (getOutputArrayForTensor sampleState { name := "out", bytes := [0, 0] }).2
        { name := "out", bytes := [9, 9] }
      = ((getOutputArrayForTensor sampleState { name := "out", bytes := [0, 0] }).1,
         (getOutputArrayForTensor sampleState { name := "out", bytes := [0, 0] }).2) ∧
    cachedContents
        (get_runSync (sampleEngine true true 0 0) sampleState [[1, 2, 3, 4]]).2.1 "out"
      = some [10, 10] ∧
    cachedContents
        (runSettlements (get_run (sampleEngine true true 0 0) sampleState [[1, 2, 3, 4]]).2.1
          (get_run (sampleEngine true true 0 0) sampleState [[1, 2, 3, 4]]).2.2).2 "out"
      = some [10, 10] := by
  have hthm := outputBuffers_lookup_or_create sampleState { name := "out", bytes := [0, 0] }
    { name := "out", bytes := [9, 9] }
  have hwf : sampleState.WellFormed := hthm.2.2.2.1 rfl
  refine ⟨congrArg Prod.fst (hthm.2.1 rfl), ?_, hthm.2.2.1 rfl, ?_, ?_⟩
  · exact (outputBuffers_lookup_or_create
      (get_runSync (sampleEngine true true 0 0) sampleState [[1, 2, 3, 4]]).2.1
      { name := "out", bytes := [10, 10] } { name := "out", bytes := [10, 10] }).1 0 rfl
  · obtain ⟨_, _, interpreter, hi, _, hcontents⟩ :=
      hthm.2.2.2.2.1 (sampleEngine true true 0 0) [[1, 2, 3, 4]] [0] hwf rfl
    have hint : interpreter =
        { inputs := [{ name := "in", bytes := [1, 2, 3, 4] }],
          outputs := [{ name := "out", bytes := [10, 10] }] } :=
      Option.some.inj (hi.symm.trans rfl)
    subst hint
    exact hcontents (by decide) { name := "out", bytes := [10, 10] } (List.mem_singleton.mpr rfl)
  · obtain ⟨_, _, interpreter, hi, _, hcontents⟩ :=
      hthm.2.2.2.2.2 (sampleEngine true true 0 0) [[1, 2, 3, 4]] [0] hwf rfl rfl
    have hint : interpreter =
        { inputs := [{ name := "in", bytes := [1, 2, 3, 4] }],
          outputs := [{ name := "out", bytes := [10, 10] }] } :=
      Option.some.inj (hi.symm.trans rfl)
    subst hint
    exact hcontents (by decide) { name := "out", bytes := [10, 10] } (List.mem_singleton.mpr rfl)

end FastTflite
